import Mathlib

/-!
Host liveness state tracker (statuspage-core, package handlers)

A shallow embedding of `handlers/handlers.go`: the table of per-host
liveness states, `UpdateServiceState`, `LogServiceStateChange`,
`LogUpdatetimeEvent` and the bodies of the two sweep loops
(`CleanupInactiveHosts`, `RemoveInactiveHosts`).

Modelling conventions.

* `time.Time` is an integer count of nanoseconds measured from the zero
  instant `time.Time{}`; `time.Duration` is an integer count of nanoseconds.
  `Sub` is the difference clamped to the range of an `int64`, as
  `time.Time.Sub` returns it.
* The Go map `map[string]*ServiceState` is an association list; a Go map
  has one entry per key, which is the predicate `WF`.  The order of the list
  stands for the order in which `range` visits the map, which Go does not
  fix; the statements about a sweep hold for every table and so for every
  order.
* Everything outside the table is a `World`: the readings `time.Now()` will
  return, the outcomes the log file operations will have, the lines already
  in the log file and the lines printed by the standard logger.
* The mutex makes every call of `UpdateServiceState` and every sweep pass one
  atomic step on the table, so each is a function on `Table × World`.
-/

namespace StatusPage

/-- An instant, in nanoseconds from the zero instant `time.Time{}`. -/
abbrev Time := Int

/-- A `time.Duration`, in nanoseconds. -/
abbrev Duration := Int

/-- The zero instant `time.Time{}`. -/
def zeroTime : Time := 0

/-- Go `t.IsZero()`. -/
def IsZero (t : Time) : Bool := decide (t = zeroTime)

/-- Go `minDuration`, the least value of a `time.Duration`: `-1 << 63`. -/
def minDuration : Duration := -9223372036854775808

/-- Go `maxDuration`, the greatest value of a `time.Duration`: `1<<63 - 1`. -/
def maxDuration : Duration := 9223372036854775807

/-- Go `t.Sub(u)`: the duration `t - u`, and the greatest (or least) duration
when `t - u` is more (or less) than a `time.Duration` can hold. -/
def Sub (t u : Time) : Duration :=
  if t - u > maxDuration then maxDuration
  else if t - u < minDuration then minDuration
  else t - u

/-- Go `time.Second`. -/
def Second : Duration := 1000000000

/-- The struct `ServiceState`. -/
structure ServiceState where
  Host : String
  IsUp : Bool
  LastChange : Time
  UpdatetimeStart : Time
  LastRequestTime : Time
deriving DecidableEq, Repr

/-- The struct `UpdatetimeEvent`. -/
structure UpdatetimeEvent where
  StartTime : Time
  EndTime : Time
  Reason : String
deriving DecidableEq, Repr

/-- The constants of package `global` that `handlers.go` reads; the package
is not part of the sources, so its two constants are parameters. -/
structure Global where
  LOGFILENAME : String
  BOOTUP_TIME : Time

/-- What happens when `LogUpdatetimeEvent` opens the log file and writes one
line: both succeed, `os.OpenFile` fails, or `file.WriteString` fails (each
failure with the text of its error). -/
inductive SinkResult where
  | ok : SinkResult
  | openError (err : String) : SinkResult
  | writeError (err : String) : SinkResult
deriving DecidableEq, Repr

/-- The state outside the table.  `clock k` is what the `k`-th coming call of
`time.Now()` returns; `sink k` is the outcome of the `k`-th coming call of
`LogUpdatetimeEvent`; `file` holds the entries appended to the log file, one
per written line; `diag` holds the lines printed with `log.Printf`;
`emitted` is the history of every event handed to `LogUpdatetimeEvent`,
written or not (a history variable, the source keeps no such list). -/
structure World where
  clock : Nat → Time
  sink : Nat → SinkResult
  file : List UpdatetimeEvent
  diag : List String
  emitted : List UpdatetimeEvent

/-- The field `states map[string]*ServiceState` of `ServiceStates`. -/
abbrev Table := List (String × ServiceState)

/-- One entry per key, as in a Go map. -/
def WF (m : Table) : Prop := (m.map Prod.fst).Nodup

/-- Go `m[k]` with the comma-ok form: the entry stored under `k`, if any. -/
def mapGet : Table → String → Option ServiceState
  | [], _ => none
  | (k1, v1) :: rest, k => if k1 = k then some v1 else mapGet rest k

/-- Go `m[k] = v`: replaces the entry under `k`, or adds one. -/
def mapSet : Table → String → ServiceState → Table
  | [], k, v => [(k, v)]
  | (k1, v1) :: rest, k, v =>
    if k1 = k then (k, v) :: rest else (k1, v1) :: mapSet rest k v

/-- Go `delete(m, k)`. -/
def mapDelete (m : Table) (k : String) : Table :=
  m.filter (fun e => !decide (e.1 = k))

/-- Go `time.Now()`: the next reading of the clock. -/
def timeNow (w : World) : Time × World :=
  (w.clock 0, { w with clock := fun n => w.clock (n + 1) })

/-- Go `log.Printf`: one line on the standard logger. -/
def logPrintf (line : String) (w : World) : World :=
  { w with diag := w.diag ++ [line] }

/-- The single quote the messages put around names. -/
def q : String := "\x27"

/-- `LogUpdatetimeEvent`: opens the log file for appending and writes one
line for the event.  A failure of either step is printed on the standard
logger and nothing is returned to the caller. -/
def LogUpdatetimeEvent (g : Global) (event : UpdatetimeEvent) (w : World) : World :=
  let outcome := w.sink 0
  let w1 : World :=
    { w with sink := fun n => w.sink (n + 1), emitted := w.emitted ++ [event] }
  match outcome with
  | SinkResult.openError err =>
    logPrintf ("Failed to open log file " ++ q ++ g.LOGFILENAME ++ q ++ ": " ++ err) w1
  | SinkResult.writeError err =>
    logPrintf ("Failed to write to log file " ++ q ++ g.LOGFILENAME ++ q ++ ": " ++ err) w1
  | SinkResult.ok => { w1 with file := w1.file ++ [event] }

/-- `LogServiceStateChange`; `currentState` is the pointer argument, `none`
for `nil`. -/
def LogServiceStateChange (g : Global) (host : String) (isUp : Bool)
    (currentState : Option ServiceState) (w : World) : World :=
  let state := if isUp then "up" else "down"
  let w := logPrintf ("Host " ++ q ++ host ++ q ++ " is " ++ state) w
  let (t0, w) := timeNow w
  let startTime := match currentState with
    | none => g.BOOTUP_TIME
    | some _ => t0
  let (t1, w) := timeNow w
  LogUpdatetimeEvent g
    { StartTime := startTime, EndTime := t1,
      Reason := "Host " ++ q ++ host ++ q ++ " is " ++ state } w

/-- `UpdateServiceState`, between `ss.mu.Lock()` and the deferred
`ss.mu.Unlock()`.  `currentState` is the pointer stored under `host`, so the
writes to its fields land in the entry of the table. -/
def UpdateServiceState (g : Global) (host : String) (isCurrentlyUp : Bool)
    (ss : Table) (w : World) : Table × World :=
  match mapGet ss host with
  | none =>
    let w := logPrintf ("Added host " ++ q ++ host ++ q ++ " to the list of monitored hosts") w
    let (t0, w) := timeNow w
    let (t1, w) := timeNow w
    let w := LogUpdatetimeEvent g
      { StartTime := t0, EndTime := t1,
        Reason := "Added host " ++ q ++ host ++ q ++ " to the list of monitored hosts" } w
    let (t2, w) := timeNow w
    let (t3, w) := timeNow w
    let (t4, w) := timeNow w
    let created : ServiceState :=
      { Host := host, IsUp := isCurrentlyUp, LastChange := t2,
        UpdatetimeStart := t3, LastRequestTime := t4 }
    let created :=
      if isCurrentlyUp then { created with UpdatetimeStart := zeroTime } else created
    let w := LogServiceStateChange g host isCurrentlyUp none w
    (mapSet ss host created, w)
  | some currentState =>
    let (t0, w) := timeNow w
    let currentState := { currentState with LastRequestTime := t0 }
    if currentState.IsUp != isCurrentlyUp then
      let w := LogServiceStateChange g host isCurrentlyUp (some currentState) w
      if !isCurrentlyUp then
        let (t1, w) := timeNow w
        let currentState := { currentState with UpdatetimeStart := t1 }
        let (t2, w) := timeNow w
        let currentState := { currentState with IsUp := isCurrentlyUp, LastChange := t2 }
        (mapSet ss host currentState, w)
      else
        let currentState :=
          if !IsZero currentState.UpdatetimeStart then
            { currentState with UpdatetimeStart := zeroTime }
          else currentState
        let (t2, w) := timeNow w
        let currentState := { currentState with IsUp := isCurrentlyUp, LastChange := t2 }
        (mapSet ss host currentState, w)
    else
      (mapSet ss host currentState, w)

/-- The `range` loop of `CleanupInactiveHosts` over the entries still to
visit; `durationString` is Go's rendering of a `time.Duration` under `%s`. -/
def cleanupLoop (g : Global) (durationString : Duration → String) (timeout : Duration)
    (now : Time) : List (String × ServiceState) → Table → World → Table × World
  | [], ss, w => (ss, w)
  | (host, state) :: rest, ss, w =>
    if Sub now state.LastRequestTime > timeout then
      let ss := mapDelete ss host
      let line := "Removed host " ++ q ++ host ++ q ++
        " from the list of monitored hosts after " ++ durationString timeout ++ " of inactivty"
      let w := logPrintf line w
      let w := LogUpdatetimeEvent g
        { StartTime := state.LastRequestTime, EndTime := now, Reason := line } w
      cleanupLoop g durationString timeout now rest ss w
    else
      cleanupLoop g durationString timeout now rest ss w

/-- One tick of `CleanupInactiveHosts(timeout)`: the body of `case <-ticker.C`.
The clock is read before the lock is taken; `ss` is the table found once the
lock is held, and the pass runs on it up to `serviceStates.mu.Unlock()`.  The
entries are visited in the order of the list. -/
def CleanupInactiveHosts (g : Global) (durationString : Duration → String)
    (timeout : Duration) (ss : Table) (w : World) : Table × World :=
  let (now, w) := timeNow w
  cleanupLoop g durationString timeout now ss ss w

/-- The `range` loop of `RemoveInactiveHosts` over the entries still to
visit. -/
def removeLoop (g : Global) (currentTime : Time) :
    List (String × ServiceState) → Table → World → Table × World
  | [], ss, w => (ss, w)
  | (host, state) :: rest, ss, w =>
    if Sub currentTime state.LastRequestTime > 5 * Second then
      let ss := mapDelete ss host
      let line := "Automatically removed host " ++ q ++ host ++ q ++
        " from the list of monitored hosts"
      let w := logPrintf line w
      let w := LogUpdatetimeEvent g
        { StartTime := state.LastRequestTime, EndTime := currentTime, Reason := line } w
      removeLoop g currentTime rest ss w
    else
      removeLoop g currentTime rest ss w

/-- One round of `RemoveInactiveHosts`, after the sleep: from `ss.mu.Lock()`
to `ss.mu.Unlock()`. -/
def RemoveInactiveHosts (g : Global) (ss : Table) (w : World) : Table × World :=
  let (currentTime, w) := timeNow w
  removeLoop g currentTime ss ss w

/-- The world `w` with a clock that reads `now` at every coming call. -/
def atTime (now : Time) (w : World) : World :=
  { w with clock := fun _ => now }

/-- A log file that is empty, a sink that accepts every line, a clock that
reads `now`. -/
def quietWorld (now : Time) : World :=
  { clock := fun _ => now, sink := fun _ => SinkResult.ok, file := [], diag := [],
    emitted := [] }

/-- The sweep condition `now.Sub(state.LastRequestTime) > timeout` on one
entry. -/
def stale (timeout : Duration) (now : Time) (e : String × ServiceState) : Bool :=
  decide (Sub now e.2.LastRequestTime > timeout)

/-- The event a sweep of `CleanupInactiveHosts` logs for the entry it
removes. -/
def cleanupEvent (durationString : Duration → String) (timeout : Duration) (now : Time)
    (e : String × ServiceState) : UpdatetimeEvent :=
  { StartTime := e.2.LastRequestTime, EndTime := now,
    Reason := "Removed host " ++ q ++ e.1 ++ q ++
      " from the list of monitored hosts after " ++ durationString timeout ++ " of inactivty" }

/-- The calls `UpdateServiceState(h, b)` of a list of reports, one after the
other in the order of the list: the order in which the mutex lets them in. -/
def runUpdates (g : Global) : List (String × Bool) → Table × World → Table × World
  | [], st => st
  | (h, b) :: rest, st => runUpdates g rest (UpdateServiceState g h b st.1 st.2)

/-- The tables the program can hold: the empty table it starts with, and
every table that one more call of `UpdateServiceState` or one more sweep pass
makes of such a table.  The clock of a call of `UpdateServiceState` never
reads the zero instant; a sweep pass stores no reading, so its clock is
free. -/
inductive Reachable (g : Global) : Table → Prop
  | empty : Reachable g []
  | update (ss : Table) (h : String) (b : Bool) (w : World) :
      Reachable g ss → (∀ k, w.clock k ≠ zeroTime) →
      Reachable g (UpdateServiceState g h b ss w).1
  | cleanup (ss : Table) (ds : Duration → String) (timeout : Duration) (w : World) :
      Reachable g ss → Reachable g (CleanupInactiveHosts g ds timeout ss w).1
  | remove (ss : Table) (w : World) :
      Reachable g ss → Reachable g (RemoveInactiveHosts g ss w).1

/-- Sample constants of package `global`: the process booted at instant 5. -/
def sampleGlobal : Global :=
  { LOGFILENAME := "logs/uptime.log", BOOTUP_TIME := 5 }

/-- A sample rendering of a duration: its count of nanoseconds. -/
def sampleDurationString (d : Duration) : String :=
  toString d ++ "ns"

/-- Host `a` reported up at instant 10, on the empty table. -/
def upAt10 : Table × World :=
  UpdateServiceState sampleGlobal "a" true [] (quietWorld 10)

/-- Then reported down at instant 20. -/
def downAt20 : Table × World :=
  UpdateServiceState sampleGlobal "a" false upAt10.1 (atTime 20 upAt10.2)

/-- Then reported up again at instant 30. -/
def upAt30 : Table × World :=
  UpdateServiceState sampleGlobal "a" true downAt20.1 (atTime 30 downAt20.2)

/-! ## The table as a map -/

theorem mapGet_mapSet_self (m : Table) (k : String) (v : ServiceState) :
    mapGet (mapSet m k v) k = some v := by
  induction m with
  | nil => simp [mapSet, mapGet]
  | cons e rest ih =>
    obtain ⟨k1, v1⟩ := e
    by_cases hk : k1 = k
    · simp [mapSet, mapGet, hk]
    · simp [mapSet, mapGet, hk, ih]

theorem mapGet_mapSet_ne (m : Table) (k k2 : String) (v : ServiceState) (hne : k2 ≠ k) :
    mapGet (mapSet m k v) k2 = mapGet m k2 := by
  induction m with
  | nil => simp [mapSet, mapGet, Ne.symm hne]
  | cons e rest ih =>
    obtain ⟨k1, v1⟩ := e
    by_cases hk : k1 = k
    · subst hk
      simp [mapSet, mapGet, Ne.symm hne]
    · by_cases hk2 : k1 = k2
      · subst hk2
        simp [mapSet, mapGet, hk]
      · simp [mapSet, mapGet, hk, hk2, ih]

theorem mapGet_eq_none_iff (m : Table) (k : String) :
    mapGet m k = none ↔ k ∉ m.map Prod.fst := by
  induction m with
  | nil => simp [mapGet]
  | cons e rest ih =>
    obtain ⟨k1, v1⟩ := e
    by_cases hk : k1 = k
    · simp [mapGet, hk]
    · simp [mapGet, hk, ih, Ne.symm hk]

theorem mem_of_mapGet (m : Table) (k : String) (v : ServiceState)
    (h : mapGet m k = some v) : (k, v) ∈ m := by
  induction m with
  | nil => simp [mapGet] at h
  | cons e rest ih =>
    obtain ⟨k1, v1⟩ := e
    by_cases hk : k1 = k
    · simp [mapGet, hk] at h
      simp [hk, h]
    · simp [mapGet, hk] at h
      simp [ih h]

theorem mapGet_of_mem (m : Table) (k : String) (v : ServiceState)
    (hwf : WF m) (h : (k, v) ∈ m) : mapGet m k = some v := by
  induction m with
  | nil => simp at h
  | cons e rest ih =>
    obtain ⟨k1, v1⟩ := e
    simp only [WF, List.map_cons, List.nodup_cons] at hwf
    rcases List.mem_cons.mp h with heq | hmem
    · simp only [Prod.mk.injEq] at heq
      simp [mapGet, heq.1, heq.2]
    · have hk : k1 ≠ k := by
        intro hk
        apply hwf.1
        rw [hk]
        exact List.mem_map_of_mem Prod.fst hmem
      simp [mapGet, hk, ih hwf.2 hmem]

theorem mapSet_of_absent (m : Table) (k : String) (v : ServiceState)
    (h : mapGet m k = none) : mapSet m k v = m ++ [(k, v)] := by
  induction m with
  | nil => simp [mapSet]
  | cons e rest ih =>
    obtain ⟨k1, v1⟩ := e
    by_cases hk : k1 = k
    · simp [mapGet, hk] at h
    · simp [mapGet, hk] at h
      simp [mapSet, hk, ih h]

theorem keys_mapSet_of_present (m : Table) (k : String) (s v : ServiceState)
    (h : mapGet m k = some s) : (mapSet m k v).map Prod.fst = m.map Prod.fst := by
  induction m with
  | nil => simp [mapGet] at h
  | cons e rest ih =>
    obtain ⟨k1, v1⟩ := e
    by_cases hk : k1 = k
    · simp [mapSet, hk]
    · simp [mapGet, hk] at h
      simp [mapSet, hk, ih h]

theorem mem_mapSet (m : Table) (k : String) (v : ServiceState) (e : String × ServiceState)
    (h : e ∈ mapSet m k v) : e ∈ m ∨ e = (k, v) := by
  induction m with
  | nil => simpa [mapSet] using h
  | cons e1 rest ih =>
    obtain ⟨k1, v1⟩ := e1
    by_cases hk : k1 = k
    · simp [mapSet, hk] at h
      rcases h with h | h
      · exact Or.inr h
      · exact Or.inl (List.mem_cons_of_mem _ h)
    · simp [mapSet, hk] at h
      rcases h with h | h
      · exact Or.inl (by simp [h])
      · rcases ih h with h2 | h2
        · exact Or.inl (List.mem_cons_of_mem _ h2)
        · exact Or.inr h2

theorem WF_filter (ss : Table) (p : String × ServiceState → Bool) (hwf : WF ss) :
    WF (ss.filter p) := by
  unfold WF at *
  exact List.Nodup.sublist (List.Sublist.map Prod.fst (List.filter_sublist ss)) hwf

theorem mapGet_filter (ss : Table) (p : String × ServiceState → Bool) (h : String)
    (s : ServiceState) (hwf : WF ss) (hget : mapGet ss h = some s) :
    mapGet (ss.filter p) h = if p (h, s) then some s else none := by
  have hmem : (h, s) ∈ ss := mem_of_mapGet ss h s hget
  by_cases hp : p (h, s) = true
  · rw [if_pos hp]
    exact mapGet_of_mem _ h s (WF_filter ss p hwf) (List.mem_filter.mpr ⟨hmem, hp⟩)
  · rw [if_neg hp, mapGet_eq_none_iff]
    intro hk
    obtain ⟨x, hx, hxk⟩ := List.mem_map.mp hk
    obtain ⟨hxs, hpx⟩ := List.mem_filter.mp hx
    have hx2 : mapGet ss x.1 = some x.2 := mapGet_of_mem ss x.1 x.2 hwf hxs
    rw [hxk, hget] at hx2
    have hxe : x = (h, s) := Prod.ext hxk (Option.some.inj hx2).symm
    rw [hxe] at hpx
    exact hp hpx

/-! ## The world: what each call leaves of the clock and of the logs -/

@[simp]
theorem LogUpdatetimeEvent_clock (g : Global) (e : UpdatetimeEvent) (w : World) :
    (LogUpdatetimeEvent g e w).clock = w.clock := by
  unfold LogUpdatetimeEvent
  cases w.sink 0 <;> simp [logPrintf]

@[simp]
theorem LogUpdatetimeEvent_emitted (g : Global) (e : UpdatetimeEvent) (w : World) :
    (LogUpdatetimeEvent g e w).emitted = w.emitted ++ [e] := by
  unfold LogUpdatetimeEvent
  cases w.sink 0 <;> simp [logPrintf]

@[simp]
theorem LogUpdatetimeEvent_sink (g : Global) (e : UpdatetimeEvent) (w : World) :
    (LogUpdatetimeEvent g e w).sink = fun n => w.sink (n + 1) := by
  unfold LogUpdatetimeEvent
  cases w.sink 0 <;> simp [logPrintf]

theorem LogUpdatetimeEvent_file (g : Global) (e : UpdatetimeEvent) (w : World) :
    (LogUpdatetimeEvent g e w).file =
      if w.sink 0 = SinkResult.ok then w.file ++ [e] else w.file := by
  unfold LogUpdatetimeEvent
  cases h : w.sink 0 <;> simp [logPrintf]

@[simp]
theorem LogServiceStateChange_clock (g : Global) (host : String) (isUp : Bool)
    (cur : Option ServiceState) (w : World) :
    (LogServiceStateChange g host isUp cur w).clock = fun n => w.clock (n + 2) := by
  simp [LogServiceStateChange, timeNow, logPrintf]

@[simp]
theorem LogServiceStateChange_emitted (g : Global) (host : String) (isUp : Bool)
    (cur : Option ServiceState) (w : World) :
    (LogServiceStateChange g host isUp cur w).emitted =
      w.emitted ++ [{ StartTime := match cur with
                        | none => g.BOOTUP_TIME
                        | some _ => w.clock 0,
                      EndTime := w.clock 1,
                      Reason := "Host " ++ q ++ host ++ q ++ " is " ++
                        (if isUp then "up" else "down") }] := by
  simp [LogServiceStateChange, timeNow, logPrintf]

/-! ## One call of `UpdateServiceState` -/

/-- What `UpdateServiceState` stores for a host it has not seen. -/
theorem UpdateServiceState_absent (g : Global) (h : String) (b : Bool) (ss : Table)
    (w : World) (habs : mapGet ss h = none) :
    (UpdateServiceState g h b ss w).1 =
      ss ++ [(h, { Host := h, IsUp := b, LastChange := w.clock 2,
                   UpdatetimeStart := if b then zeroTime else w.clock 3,
                   LastRequestTime := w.clock 4 })] := by
  unfold UpdateServiceState
  rw [habs]
  cases b <;> simp [timeNow, logPrintf, mapSet_of_absent _ _ _ habs]

/-- What `UpdateServiceState` stores for a host it already holds. -/
theorem UpdateServiceState_present (g : Global) (h : String) (b : Bool) (ss : Table)
    (w : World) (s : ServiceState) (hget : mapGet ss h = some s) :
    (UpdateServiceState g h b ss w).1 =
      mapSet ss h
        (if s.IsUp = b then { s with LastRequestTime := w.clock 0 }
         else { Host := s.Host, IsUp := b,
                LastChange := if b then w.clock 3 else w.clock 4,
                UpdatetimeStart := if b then zeroTime else w.clock 3,
                LastRequestTime := w.clock 0 }) := by
  unfold UpdateServiceState
  rw [hget]
  cases b <;> cases hs : s.IsUp <;> simp [timeNow, hs]
  by_cases hz : IsZero s.UpdatetimeStart = true
  · have hz2 : s.UpdatetimeStart = zeroTime := by simpa [IsZero] using hz
    simp [hz, hz2]
  · simp [hz]

/-- What a report that repeats the stored value leaves of the world: one
reading of the clock is used and nothing is logged. -/
theorem UpdateServiceState_same_world (g : Global) (h : String) (b : Bool) (ss : Table)
    (w : World) (s : ServiceState) (hget : mapGet ss h = some s) (hsame : s.IsUp = b) :
    (UpdateServiceState g h b ss w).2 = { w with clock := fun n => w.clock (n + 1) } := by
  unfold UpdateServiceState
  rw [hget]
  simp [hsame, timeNow]

/-- The two events a report on a host not seen before hands to the log. -/
theorem UpdateServiceState_absent_emitted (g : Global) (h : String) (b : Bool) (ss : Table)
    (w : World) (habs : mapGet ss h = none) :
    (UpdateServiceState g h b ss w).2.emitted =
      w.emitted ++
        [{ StartTime := w.clock 0, EndTime := w.clock 1,
           Reason := "Added host " ++ q ++ h ++ q ++ " to the list of monitored hosts" },
         { StartTime := g.BOOTUP_TIME, EndTime := w.clock 6,
           Reason := "Host " ++ q ++ h ++ q ++ " is " ++ (if b then "up" else "down") }] := by
  unfold UpdateServiceState
  rw [habs]
  simp [timeNow, logPrintf]

/-- The lines a report on a host not seen before leaves in the log file when
the sink accepts every line. -/
theorem UpdateServiceState_absent_file (g : Global) (h : String) (b : Bool) (ss : Table)
    (w : World) (habs : mapGet ss h = none) (hok : ∀ k, w.sink k = SinkResult.ok) :
    (UpdateServiceState g h b ss w).2.file =
      w.file ++
        [{ StartTime := w.clock 0, EndTime := w.clock 1,
           Reason := "Added host " ++ q ++ h ++ q ++ " to the list of monitored hosts" },
         { StartTime := g.BOOTUP_TIME, EndTime := w.clock 6,
           Reason := "Host " ++ q ++ h ++ q ++ " is " ++ (if b then "up" else "down") }] := by
  unfold UpdateServiceState
  rw [habs]
  simp [timeNow, logPrintf, LogServiceStateChange, LogUpdatetimeEvent_file, hok]

/-- The one event a report that flips the stored value hands to the log. -/
theorem UpdateServiceState_flip_emitted (g : Global) (h : String) (b : Bool) (ss : Table)
    (w : World) (s : ServiceState) (hget : mapGet ss h = some s) (hflip : s.IsUp ≠ b) :
    (UpdateServiceState g h b ss w).2.emitted =
      w.emitted ++
        [{ StartTime := w.clock 1, EndTime := w.clock 2,
           Reason := "Host " ++ q ++ h ++ q ++ " is " ++ (if b then "up" else "down") }] := by
  unfold UpdateServiceState
  rw [hget]
  cases b <;> cases hs : s.IsUp <;> simp_all [timeNow]

/-- The table a report leaves depends on the world through its clock only. -/
theorem UpdateServiceState_table_of_clock (g : Global) (h : String) (b : Bool) (ss : Table)
    (w1 w2 : World) (hclk : w1.clock = w2.clock) :
    (UpdateServiceState g h b ss w1).1 = (UpdateServiceState g h b ss w2).1 := by
  cases hget : mapGet ss h with
  | none =>
    rw [UpdateServiceState_absent g h b ss w1 hget, UpdateServiceState_absent g h b ss w2 hget,
      hclk]
  | some s =>
    rw [UpdateServiceState_present g h b ss w1 s hget,
      UpdateServiceState_present g h b ss w2 s hget, hclk]

/-- The history of events a report leaves depends on the world through its
clock and its earlier history only. -/
theorem UpdateServiceState_emitted_of_clock (g : Global) (h : String) (b : Bool)
    (ss : Table) (w1 w2 : World) (hclk : w1.clock = w2.clock)
    (hem : w1.emitted = w2.emitted) :
    (UpdateServiceState g h b ss w1).2.emitted = (UpdateServiceState g h b ss w2).2.emitted := by
  cases hget : mapGet ss h with
  | none =>
    rw [UpdateServiceState_absent_emitted g h b ss w1 hget,
      UpdateServiceState_absent_emitted g h b ss w2 hget, hclk, hem]
  | some s =>
    by_cases hsb : s.IsUp = b
    · rw [UpdateServiceState_same_world g h b ss w1 s hget hsb,
        UpdateServiceState_same_world g h b ss w2 s hget hsb]
      exact hem
    · rw [UpdateServiceState_flip_emitted g h b ss w1 s hget hsb,
        UpdateServiceState_flip_emitted g h b ss w2 s hget hsb, hclk, hem]

/-- One call of `UpdateServiceState` keeps `UpdatetimeStart` zero exactly on
the entries that are up, when the clock does not read the zero instant. -/
theorem UpdateServiceState_downSince (g : Global) (h : String) (b : Bool) (ss : Table)
    (w : World) (hclk : ∀ k, w.clock k ≠ zeroTime)
    (hinv : ∀ e ∈ ss, (e.2.UpdatetimeStart = zeroTime ↔ e.2.IsUp = true)) :
    ∀ e ∈ (UpdateServiceState g h b ss w).1,
      (e.2.UpdatetimeStart = zeroTime ↔ e.2.IsUp = true) := by
  intro e he
  cases hget : mapGet ss h with
  | none =>
    rw [UpdateServiceState_absent g h b ss w hget] at he
    rcases List.mem_append.mp he with hmem | heq
    · exact hinv e hmem
    · rw [List.mem_singleton.mp heq]
      cases b <;> simp [hclk]
  | some s =>
    rw [UpdateServiceState_present g h b ss w s hget] at he
    have hs := hinv (h, s) (mem_of_mapGet ss h s hget)
    rcases mem_mapSet _ _ _ _ he with hmem | heq
    · exact hinv e hmem
    · rw [heq]
      by_cases hsb : s.IsUp = b
      · simpa [hsb] using hs
      · cases b <;> simp [hsb, hclk]

/-- What a run of reports on hosts that are all new and all different adds
to the table: one entry per report, in the order of the calls. -/
theorem runUpdates_fresh (g : Global) (order : List (String × Bool)) (ss : Table)
    (w : World) (hnd : (order.map Prod.fst).Nodup)
    (hdisj : ∀ c ∈ order, mapGet ss c.1 = none) :
    ∃ added : Table, (runUpdates g order (ss, w)).1 = ss ++ added ∧
      added.map (fun e => (e.1, e.2.IsUp)) = order ∧
      ∀ e ∈ added, e.2.Host = e.1 := by
  induction order generalizing ss w with
  | nil => exact ⟨[], by simp [runUpdates]⟩
  | cons c rest ih =>
    obtain ⟨h, b⟩ := c
    simp only [List.map_cons, List.nodup_cons] at hnd
    have habs : mapGet ss h = none := hdisj (h, b) (List.mem_cons_self _ _)
    have htab := UpdateServiceState_absent g h b ss w habs
    have hdisj2 : ∀ c ∈ rest, mapGet (UpdateServiceState g h b ss w).1 c.1 = none := by
      intro c hc
      rw [htab, ← mapSet_of_absent _ _ _ habs, mapGet_mapSet_ne]
      · exact hdisj c (List.mem_cons_of_mem _ hc)
      · intro heq
        apply hnd.1
        rw [← heq]
        exact List.mem_map_of_mem Prod.fst hc
    obtain ⟨added, h1, h2, h3⟩ :=
      ih (UpdateServiceState g h b ss w).1 (UpdateServiceState g h b ss w).2 hnd.2 hdisj2
    refine ⟨(h, { Host := h, IsUp := b, LastChange := w.clock 2,
                  UpdatetimeStart := if b then zeroTime else w.clock 3,
                  LastRequestTime := w.clock 4 }) :: added, ?_, ?_, ?_⟩
    · simp only [runUpdates]
      rw [h1, htab]
      simp
    · simp [h2]
    · intro e he
      rcases List.mem_cons.mp he with heq | hmem
      · rw [heq]
      · exact h3 e hmem

/-! ## The sweep loops -/

theorem cleanupLoop_table (g : Global) (ds : Duration → String) (timeout : Duration)
    (now : Time) (l : List (String × ServiceState)) (ss : Table) (w : World) :
    (cleanupLoop g ds timeout now l ss w).1 =
      ss.filter (fun e => !(l.any (fun x => stale timeout now x && decide (x.1 = e.1)))) := by
  induction l generalizing ss w with
  | nil => simp [cleanupLoop]
  | cons x rest ih =>
    obtain ⟨host, state⟩ := x
    unfold cleanupLoop
    by_cases hst : Sub now state.LastRequestTime > timeout
    · simp only [hst, if_true]
      rw [ih]
      unfold mapDelete
      rw [List.filter_filter]
      apply List.filter_congr
      intro e _
      by_cases he : e.1 = host
      · simp [stale, hst, he]
      · simp [stale, hst, he, Ne.symm he]
    · simp only [hst, if_false]
      rw [ih]
      apply List.filter_congr
      intro e _
      simp [stale, hst]

theorem cleanupLoop_emitted (g : Global) (ds : Duration → String) (timeout : Duration)
    (now : Time) (l : List (String × ServiceState)) (ss : Table) (w : World) :
    (cleanupLoop g ds timeout now l ss w).2.emitted =
      w.emitted ++ (l.filter (stale timeout now)).map (cleanupEvent ds timeout now) := by
  induction l generalizing ss w with
  | nil => simp [cleanupLoop]
  | cons x rest ih =>
    obtain ⟨host, state⟩ := x
    unfold cleanupLoop
    by_cases hst : Sub now state.LastRequestTime > timeout
    · simp only [hst, if_true]
      rw [ih]
      simp [stale, hst, cleanupEvent, logPrintf]
    · simp only [hst, if_false]
      rw [ih]
      simp [stale, hst]

theorem removeLoop_table (g : Global) (now : Time) (l : List (String × ServiceState))
    (ss : Table) (w : World) :
    (removeLoop g now l ss w).1 =
      ss.filter (fun e => !(l.any (fun x => stale (5 * Second) now x && decide (x.1 = e.1)))) := by
  induction l generalizing ss w with
  | nil => simp [removeLoop]
  | cons x rest ih =>
    obtain ⟨host, state⟩ := x
    unfold removeLoop
    by_cases hst : Sub now state.LastRequestTime > 5 * Second
    · simp only [hst, if_true]
      rw [ih]
      unfold mapDelete
      rw [List.filter_filter]
      apply List.filter_congr
      intro e _
      by_cases he : e.1 = host
      · simp [stale, hst, he]
      · simp [stale, hst, he, Ne.symm he]
    · simp only [hst, if_false]
      rw [ih]
      apply List.filter_congr
      intro e _
      simp [stale, hst]

theorem filter_any_of_WF (timeout : Duration) (now : Time) (ss : Table) (hwf : WF ss) :
    ss.filter (fun e => !(ss.any (fun x => stale timeout now x && decide (x.1 = e.1)))) =
      ss.filter (fun e => !stale timeout now e) := by
  apply List.filter_congr
  intro e he
  by_cases hs : stale timeout now e = true
  · have : ss.any (fun x => stale timeout now x && decide (x.1 = e.1)) = true := by
      rw [List.any_eq_true]
      exact ⟨e, he, by simp [hs]⟩
    simp [this, hs]
  · have : ss.any (fun x => stale timeout now x && decide (x.1 = e.1)) = false := by
      rw [Bool.eq_false_iff]
      intro hany
      rw [List.any_eq_true] at hany
      obtain ⟨x, hx, hcond⟩ := hany
      simp only [Bool.and_eq_true, decide_eq_true_eq] at hcond
      have hx2 : mapGet ss x.1 = some x.2 := mapGet_of_mem ss x.1 x.2 hwf hx
      have he2 : mapGet ss e.1 = some e.2 := mapGet_of_mem ss e.1 e.2 hwf he
      rw [hcond.2, he2] at hx2
      have hxe : x = e := Prod.ext hcond.2 (Option.some.inj hx2).symm
      rw [hxe] at hcond
      exact hs hcond.1
    simp [this, hs]

theorem mem_CleanupInactiveHosts (g : Global) (ds : Duration → String) (timeout : Duration)
    (ss : Table) (w : World) (e : String × ServiceState)
    (he : e ∈ (CleanupInactiveHosts g ds timeout ss w).1) : e ∈ ss := by
  simp only [CleanupInactiveHosts, timeNow] at he
  rw [cleanupLoop_table] at he
  exact (List.mem_filter.mp he).1

theorem mem_RemoveInactiveHosts (g : Global) (ss : Table) (w : World)
    (e : String × ServiceState) (he : e ∈ (RemoveInactiveHosts g ss w).1) : e ∈ ss := by
  simp only [RemoveInactiveHosts, timeNow] at he
  rw [removeLoop_table] at he
  exact (List.mem_filter.mp he).1
/-! ## The clamped difference of two instants -/

theorem Sub_le_maxDuration (t u : Time) : Sub t u ≤ maxDuration := by
  unfold Sub
  split_ifs with h1 h2
  · exact le_refl _
  · unfold minDuration maxDuration
    decide
  · exact not_lt.mp h1

/-- For a timeout that is a duration below the greatest one, the clamped
difference exceeds the timeout exactly when the difference does. -/
theorem Sub_gt_iff (t u : Time) (timeout : Duration) (hlo : minDuration ≤ timeout)
    (hhi : timeout < maxDuration) : Sub t u > timeout ↔ t - u > timeout := by
  unfold Sub
  split_ifs with h1 h2
  · constructor
    · intro _
      exact lt_trans hhi h1
    · intro _
      exact hhi
  · constructor
    · intro h
      exact absurd h (not_lt.mpr hlo)
    · intro h
      exact absurd (lt_of_le_of_lt hlo (lt_trans h h2)) (lt_irrefl _)
  · exact Iff.rfl

/-- What a sweep of `CleanupInactiveHosts` leaves of a table with one entry
per key: the entries that are not stale. -/
theorem CleanupInactiveHosts_table (g : Global) (ds : Duration → String)
    (timeout : Duration) (ss : Table) (w : World) (hwf : WF ss) :
    (CleanupInactiveHosts g ds timeout ss w).1 =
      ss.filter (fun e => !stale timeout (w.clock 0) e) := by
  simp only [CleanupInactiveHosts, timeNow]
  rw [cleanupLoop_table, filter_any_of_WF timeout (w.clock 0) ss hwf]

/-- The events a sweep of `CleanupInactiveHosts` hands to the log: one per
stale entry. -/
theorem CleanupInactiveHosts_emitted (g : Global) (ds : Duration → String)
    (timeout : Duration) (ss : Table) (w : World) :
    (CleanupInactiveHosts g ds timeout ss w).2.emitted =
      w.emitted ++
        (ss.filter (stale timeout (w.clock 0))).map (cleanupEvent ds timeout (w.clock 0)) := by
  simp only [CleanupInactiveHosts, timeNow]
  rw [cleanupLoop_emitted]

/-! ## Every table the program can hold has one entry per key -/

theorem WF_mapSet (m : Table) (k : String) (v : ServiceState) (hwf : WF m) :
    WF (mapSet m k v) := by
  unfold WF at *
  cases hget : mapGet m k with
  | none =>
    rw [mapSet_of_absent m k v hget, List.map_append]
    have hk : k ∉ m.map Prod.fst := (mapGet_eq_none_iff m k).mp hget
    apply List.Nodup.append hwf (List.nodup_singleton _)
    intro x hx hx2
    rw [List.mem_singleton] at hx2
    rw [hx2] at hx
    exact hk hx
  | some s =>
    rw [keys_mapSet_of_present m k s v hget]
    exact hwf

theorem WF_UpdateServiceState (g : Global) (h : String) (b : Bool) (ss : Table) (w : World)
    (hwf : WF ss) : WF (UpdateServiceState g h b ss w).1 := by
  cases hget : mapGet ss h with
  | none =>
    rw [UpdateServiceState_absent g h b ss w hget, ← mapSet_of_absent _ _ _ hget]
    exact WF_mapSet ss h _ hwf
  | some s =>
    rw [UpdateServiceState_present g h b ss w s hget]
    exact WF_mapSet ss h _ hwf

theorem Reachable_WF (g : Global) (ss : Table) (hr : Reachable g ss) : WF ss := by
  induction hr with
  | empty => simp [WF]
  | update ss h b w _ _ ih => exact WF_UpdateServiceState g h b ss w ih
  | cleanup ss ds timeout w _ ih =>
    simp only [CleanupInactiveHosts, timeNow]
    rw [cleanupLoop_table]
    exact WF_filter ss _ ih
  | remove ss w _ ih =>
    simp only [RemoveInactiveHosts, timeNow]
    rw [removeLoop_table]
    exact WF_filter ss _ ih

/-! ## The claims -/

/-- Claim C1: in every table reachable from the empty table by calls of
`UpdateServiceState` and sweep passes, the clock never reading the zero
instant, every stored entry has `UpdatetimeStart` zero exactly when `IsUp` is
true. -/
theorem downSince_invariant (g : Global) (ss : Table) (hr : Reachable g ss) :
    ∀ e ∈ ss, (e.2.UpdatetimeStart = zeroTime ↔ e.2.IsUp = true) := by
  induction hr with
  | empty => intro e he; simp at he
  | update ss h b w _ hclk ih => exact UpdateServiceState_downSince g h b ss w hclk ih
  | cleanup ss ds timeout w _ ih =>
    intro e he
    exact ih e (mem_CleanupInactiveHosts g ds timeout ss w e he)
  | remove ss w _ ih =>
    intro e he
    exact ih e (mem_RemoveInactiveHosts g ss w e he)

/-- Witness of C1: the table after host `a` is reported down at instant 10 and
swept at instant 12 with a timeout of 5 is reachable and satisfies the
invariant. -/
theorem downSince_invariant_witness :
    Reachable sampleGlobal
      (CleanupInactiveHosts sampleGlobal sampleDurationString 5
        (UpdateServiceState sampleGlobal "a" false [] (quietWorld 10)).1 (quietWorld 12)).1 ∧
    ∀ e ∈ (CleanupInactiveHosts sampleGlobal sampleDurationString 5
        (UpdateServiceState sampleGlobal "a" false [] (quietWorld 10)).1 (quietWorld 12)).1,
      (e.2.UpdatetimeStart = zeroTime ↔ e.2.IsUp = true) :=
  ⟨Reachable.cleanup _ _ _ _
      (Reachable.update [] "a" false (quietWorld 10) Reachable.empty (by intro k; simp [quietWorld, zeroTime])),
    downSince_invariant sampleGlobal _
      (Reachable.cleanup _ _ _ _
        (Reachable.update [] "a" false (quietWorld 10) Reachable.empty
          (by intro k; simp [quietWorld, zeroTime])))⟩

/-- Claim C2: on a table without host `h`, `UpdateServiceState(h, b)` with the
clock reading `now` leaves an entry for `h` with `Host = h`, `IsUp = b`,
`LastChange = now`, `LastRequestTime = now`, and `UpdatetimeStart` zero when
`b` is true and `now` when `b` is false. -/
theorem creation_state (g : Global) (h : String) (b : Bool) (ss : Table) (w : World)
    (now : Time) (habs : mapGet ss h = none) :
    mapGet (UpdateServiceState g h b ss (atTime now w)).1 h =
      some { Host := h, IsUp := b, LastChange := now,
             UpdatetimeStart := if b then zeroTime else now,
             LastRequestTime := now } := by
  rw [UpdateServiceState_absent g h b ss (atTime now w) habs, ← mapSet_of_absent _ _ _ habs,
    mapGet_mapSet_self]
  simp [atTime]

/-- Witness of C2: host `h2` reported down at instant 10 on the empty table. -/
theorem creation_state_witness :
    mapGet [] "h2" = none ∧
    mapGet (UpdateServiceState sampleGlobal "h2" false [] (atTime 10 (quietWorld 0))).1 "h2" =
      some { Host := "h2", IsUp := false, LastChange := 10,
             UpdatetimeStart := if false then zeroTime else 10,
             LastRequestTime := 10 } :=
  ⟨rfl, creation_state sampleGlobal "h2" false [] (quietWorld 0) 10 rfl⟩

/-- Claim C3: on a table that holds host `h` with a stored `IsUp` different
from `b`, `UpdateServiceState(h, b)` with the clock reading `now` leaves the
entry of `h` with `IsUp = b`, `LastChange = now`, `LastRequestTime = now`, and
`UpdatetimeStart` equal to `now` when the host was up (it goes down) and zero
when it was down (it goes up). -/
theorem transition_state (g : Global) (h : String) (b : Bool) (ss : Table) (w : World)
    (now : Time) (s : ServiceState) (hget : mapGet ss h = some s) (hflip : s.IsUp ≠ b) :
    mapGet (UpdateServiceState g h b ss (atTime now w)).1 h =
      some { Host := s.Host, IsUp := b, LastChange := now,
             UpdatetimeStart := if s.IsUp then now else zeroTime,
             LastRequestTime := now } := by
  rw [UpdateServiceState_present g h b ss (atTime now w) s hget, mapGet_mapSet_self]
  cases b <;> cases hs : s.IsUp <;> simp_all [atTime]

/-- Witness of C3: host `a`, stored up since instant 10, reported down at
instant 20. -/
theorem transition_state_witness :
    mapGet upAt10.1 "a" =
      some { Host := "a", IsUp := true, LastChange := 10, UpdatetimeStart := 0,
             LastRequestTime := 10 } ∧
    mapGet (UpdateServiceState sampleGlobal "a" false upAt10.1 (atTime 20 upAt10.2)).1 "a" =
      some { Host := "a", IsUp := false, LastChange := 20,
             UpdatetimeStart := if true then 20 else zeroTime,
             LastRequestTime := 20 } :=
  ⟨by decide,
    transition_state sampleGlobal "a" false upAt10.1 upAt10.2 20
      { Host := "a", IsUp := true, LastChange := 10, UpdatetimeStart := 0,
        LastRequestTime := 10 } (by decide) (by decide)⟩

/-- Counterexample to C4 as stated: host `a` is down with `UpdatetimeStart`
20 and is reported up at instant 30; the one event of the call starts at 30,
not at 20. -/
theorem transition_event_counterexample :
    mapGet downAt20.1 "a" =
      some { Host := "a", IsUp := false, LastChange := 20, UpdatetimeStart := 20,
             LastRequestTime := 20 } ∧
    upAt30.2.emitted =
      downAt20.2.emitted ++
        [{ StartTime := 30, EndTime := 30, Reason := "Host " ++ q ++ "a" ++ q ++ " is up" }] ∧
    ¬ ∃ e : UpdatetimeEvent,
        upAt30.2.emitted = downAt20.2.emitted ++ [e] ∧ e.StartTime = 20 ∧ e.EndTime = 30 := by
  have hem : upAt30.2.emitted =
      downAt20.2.emitted ++
        [{ StartTime := 30, EndTime := 30, Reason := "Host " ++ q ++ "a" ++ q ++ " is up" }] := by
    decide
  refine ⟨by decide, hem, ?_⟩
  rintro ⟨e, he, hstart, _⟩
  rw [hem] at he
  have h1 := List.append_cancel_left he
  simp only [List.cons.injEq, and_true] at h1
  rw [← h1] at hstart
  exact absurd hstart (by decide)

/-- Claim C4, as amended: on a table that holds host `h` with a stored `IsUp`
different from `b`, `UpdateServiceState(h, b)` at `now` emits exactly one
event, whose start and end are both `now`, whichever way the flip goes; for
`Update(a,true)` at `t1`, `Update(a,false)` at `t2`, `Update(a,true)` at `t3`
the final event has start `t3` and end `t3`. -/
theorem transition_event (g : Global) (h : String) (b : Bool) (ss : Table) (w : World)
    (now : Time) (s : ServiceState) (hget : mapGet ss h = some s) (hflip : s.IsUp ≠ b) :
    (UpdateServiceState g h b ss (atTime now w)).2.emitted =
      w.emitted ++ [{ StartTime := now, EndTime := now,
                      Reason := "Host " ++ q ++ h ++ q ++ " is " ++
                        (if b then "up" else "down") }] ∧
    ∀ (a : String) (t1 t2 t3 : Time) (w1 w2 w3 : World),
      (UpdateServiceState g a true
        (UpdateServiceState g a false
          (UpdateServiceState g a true [] (atTime t1 w1)).1 (atTime t2 w2)).1
        (atTime t3 w3)).2.emitted =
      w3.emitted ++ [{ StartTime := t3, EndTime := t3,
                       Reason := "Host " ++ q ++ a ++ q ++ " is " ++ "up" }] := by
  constructor
  · rw [UpdateServiceState_flip_emitted g h b ss (atTime now w) s hget hflip]
    simp [atTime]
  · intro a t1 t2 t3 w1 w2 w3
    have h1 := UpdateServiceState_absent g a true [] (atTime t1 w1) rfl
    have hg1 : mapGet (UpdateServiceState g a true [] (atTime t1 w1)).1 a =
        some { Host := a, IsUp := true, LastChange := t1, UpdatetimeStart := zeroTime,
               LastRequestTime := t1 } := by
      rw [h1]
      simp [mapGet, atTime]
    have h2 := UpdateServiceState_present g a false _ (atTime t2 w2) _ hg1
    have hg2 : mapGet (UpdateServiceState g a false
        (UpdateServiceState g a true [] (atTime t1 w1)).1 (atTime t2 w2)).1 a =
        some { Host := a, IsUp := false, LastChange := t2, UpdatetimeStart := t2,
               LastRequestTime := t2 } := by
      rw [h2, mapGet_mapSet_self]
      simp [atTime]
    rw [UpdateServiceState_flip_emitted g a true _ (atTime t3 w3) _ hg2 (by simp)]
    simp [atTime]

/-- Witness of the amended C4: host `a`, down since instant 20, reported up at
instant 30. -/
theorem transition_event_witness :
    mapGet downAt20.1 "a" =
      some { Host := "a", IsUp := false, LastChange := 20, UpdatetimeStart := 20,
             LastRequestTime := 20 } ∧
    (UpdateServiceState sampleGlobal "a" true downAt20.1 (atTime 30 downAt20.2)).2.emitted =
      downAt20.2.emitted ++
        [{ StartTime := 30, EndTime := 30,
           Reason := "Host " ++ q ++ "a" ++ q ++ " is " ++ (if true then "up" else "down") }] :=
  ⟨by decide,
    (transition_event sampleGlobal "a" true downAt20.1 downAt20.2 30
      { Host := "a", IsUp := false, LastChange := 20, UpdatetimeStart := 20,
        LastRequestTime := 20 } (by decide) (by decide)).1⟩

/-- Counterexample to C5 as stated: the process booted at instant 5 and host
`h1` is first reported at instant 10; the event whose reason says the host was
added starts at 10, and the event that starts at boot time is the other
one. -/
theorem creation_event_counterexample :
    (UpdateServiceState sampleGlobal "h1" true [] (quietWorld 10)).2.emitted =
      [{ StartTime := 10, EndTime := 10,
         Reason := "Added host " ++ q ++ "h1" ++ q ++ " to the list of monitored hosts" },
       { StartTime := 5, EndTime := 10, Reason := "Host " ++ q ++ "h1" ++ q ++ " is up" }] ∧
    ¬ ∃ e ∈ (UpdateServiceState sampleGlobal "h1" true [] (quietWorld 10)).2.emitted,
        e.Reason = "Added host " ++ q ++ "h1" ++ q ++ " to the list of monitored hosts" ∧
        e.StartTime = sampleGlobal.BOOTUP_TIME ∧ e.EndTime = 10 := by
  constructor
  · decide
  · decide

/-- Claim C5, as amended: on a table without host `h`, `UpdateServiceState(h,
b)` at `now` emits two events: first the event whose reason says the host was
added, with start `now` and end `now`, then the event whose reason says the
host is up or down, with start the boot time of the process and end `now`. -/
theorem creation_events (g : Global) (h : String) (b : Bool) (ss : Table) (w : World)
    (now : Time) (habs : mapGet ss h = none) :
    (UpdateServiceState g h b ss (atTime now w)).2.emitted =
      w.emitted ++
        [{ StartTime := now, EndTime := now,
           Reason := "Added host " ++ q ++ h ++ q ++ " to the list of monitored hosts" },
         { StartTime := g.BOOTUP_TIME, EndTime := now,
           Reason := "Host " ++ q ++ h ++ q ++ " is " ++ (if b then "up" else "down") }] := by
  rw [UpdateServiceState_absent_emitted g h b ss (atTime now w) habs]
  simp [atTime]

/-- Witness of the amended C5: host `h2` first reported, down, at instant
10. -/
theorem creation_events_witness :
    mapGet [] "h2" = none ∧
    (UpdateServiceState sampleGlobal "h2" false [] (atTime 10 (quietWorld 0))).2.emitted =
      (quietWorld 0).emitted ++
        [{ StartTime := 10, EndTime := 10,
           Reason := "Added host " ++ q ++ "h2" ++ q ++ " to the list of monitored hosts" },
         { StartTime := sampleGlobal.BOOTUP_TIME, EndTime := 10,
           Reason := "Host " ++ q ++ "h2" ++ q ++ " is " ++
             (if false then "up" else "down") }] :=
  ⟨rfl, creation_events sampleGlobal "h2" false [] (quietWorld 0) 10 rfl⟩

/-- Counterexample to C6 as stated: two consecutive reports `("h1", true)` on
the empty table, with a sink that accepts every line, leave two events in the
history and two lines in the log file, not one. -/
theorem idempotence_counterexample :
    (UpdateServiceState sampleGlobal "h1" true
      (UpdateServiceState sampleGlobal "h1" true [] (quietWorld 10)).1
      (atTime 11 (UpdateServiceState sampleGlobal "h1" true [] (quietWorld 10)).2)).2.file =
      [{ StartTime := 10, EndTime := 10,
         Reason := "Added host " ++ q ++ "h1" ++ q ++ " to the list of monitored hosts" },
       { StartTime := 5, EndTime := 10, Reason := "Host " ++ q ++ "h1" ++ q ++ " is up" }] ∧
    ¬ ((UpdateServiceState sampleGlobal "h1" true
      (UpdateServiceState sampleGlobal "h1" true [] (quietWorld 10)).1
      (atTime 11 (UpdateServiceState sampleGlobal "h1" true [] (quietWorld 10)).2)).2.emitted.length
        = (quietWorld 10).emitted.length + 1) := by
  constructor
  · decide
  · decide

/-- Claim C6, as amended: for a host `h` not in the table, two consecutive
calls `UpdateServiceState(h, b)` hand exactly two events to the log in total,
both in the first call (the event that says the host was added and the event
that says it is up or down); the second call hands over none and writes no
line. -/
theorem idempotence (g : Global) (h : String) (b : Bool) (ss : Table) (w : World)
    (habs : mapGet ss h = none) :
    (UpdateServiceState g h b (UpdateServiceState g h b ss w).1
        (UpdateServiceState g h b ss w).2).2.emitted =
      (UpdateServiceState g h b ss w).2.emitted ∧
    (UpdateServiceState g h b (UpdateServiceState g h b ss w).1
        (UpdateServiceState g h b ss w).2).2.file =
      (UpdateServiceState g h b ss w).2.file ∧
    (UpdateServiceState g h b (UpdateServiceState g h b ss w).1
        (UpdateServiceState g h b ss w).2).2.emitted.length = w.emitted.length + 2 ∧
    ((∀ k, w.sink k = SinkResult.ok) →
      (UpdateServiceState g h b (UpdateServiceState g h b ss w).1
        (UpdateServiceState g h b ss w).2).2.file.length = w.file.length + 2) := by
  have hg1 : mapGet (UpdateServiceState g h b ss w).1 h =
      some { Host := h, IsUp := b, LastChange := w.clock 2,
             UpdatetimeStart := if b then zeroTime else w.clock 3,
             LastRequestTime := w.clock 4 } := by
    rw [UpdateServiceState_absent g h b ss w habs, ← mapSet_of_absent _ _ _ habs,
      mapGet_mapSet_self]
  have hw := UpdateServiceState_same_world g h b (UpdateServiceState g h b ss w).1
    (UpdateServiceState g h b ss w).2 _ hg1 rfl
  rw [hw]
  refine ⟨rfl, rfl, ?_, ?_⟩
  · simp [UpdateServiceState_absent_emitted g h b ss w habs]
  · intro hok
    simp [UpdateServiceState_absent_file g h b ss w habs hok]

/-- Witness of the amended C6: host `h1` reported up twice on the empty
table. -/
theorem idempotence_witness :
    mapGet [] "h1" = none ∧
    (UpdateServiceState sampleGlobal "h1" true
        (UpdateServiceState sampleGlobal "h1" true [] (quietWorld 10)).1
        (UpdateServiceState sampleGlobal "h1" true [] (quietWorld 10)).2).2.emitted.length =
      (quietWorld 10).emitted.length + 2 :=
  ⟨rfl, (idempotence sampleGlobal "h1" true [] (quietWorld 10) rfl).2.2.1⟩

/-- Claim C7: on a table that holds host `h` with stored `IsUp = b`,
`UpdateServiceState(h, b)` at `now` emits no event and writes no line, sets
the `LastRequestTime` of `h` to `now`, leaves its `IsUp`, `LastChange` and
`UpdatetimeStart` as they were, and leaves the entry of every other host and
the list of hosts as they were. -/
theorem unchanged_report (g : Global) (h : String) (b : Bool) (ss : Table) (w : World)
    (now : Time) (s : ServiceState) (hget : mapGet ss h = some s) (hsame : s.IsUp = b) :
    (UpdateServiceState g h b ss (atTime now w)).2.emitted = w.emitted ∧
    (UpdateServiceState g h b ss (atTime now w)).2.file = w.file ∧
    (UpdateServiceState g h b ss (atTime now w)).2.diag = w.diag ∧
    mapGet (UpdateServiceState g h b ss (atTime now w)).1 h =
      some { Host := s.Host, IsUp := s.IsUp, LastChange := s.LastChange,
             UpdatetimeStart := s.UpdatetimeStart, LastRequestTime := now } ∧
    (∀ h2, h2 ≠ h →
      mapGet (UpdateServiceState g h b ss (atTime now w)).1 h2 = mapGet ss h2) ∧
    (UpdateServiceState g h b ss (atTime now w)).1.map Prod.fst = ss.map Prod.fst := by
  rw [UpdateServiceState_same_world g h b ss (atTime now w) s hget hsame,
    UpdateServiceState_present g h b ss (atTime now w) s hget]
  simp only [hsame, if_true]
  refine ⟨rfl, rfl, rfl, mapGet_mapSet_self _ _ _, ?_, keys_mapSet_of_present _ _ _ _ hget⟩
  intro h2 hne
  exact mapGet_mapSet_ne _ _ _ _ hne

/-- Witness of C7: host `a`, stored up since instant 10, reported up again at
instant 15. -/
theorem unchanged_report_witness :
    mapGet upAt10.1 "a" =
      some { Host := "a", IsUp := true, LastChange := 10, UpdatetimeStart := 0,
             LastRequestTime := 10 } ∧
    (UpdateServiceState sampleGlobal "a" true upAt10.1 (atTime 15 upAt10.2)).2.emitted =
      upAt10.2.emitted ∧
    mapGet (UpdateServiceState sampleGlobal "a" true upAt10.1 (atTime 15 upAt10.2)).1 "a" =
      some { Host := "a", IsUp := true, LastChange := 10, UpdatetimeStart := 0,
             LastRequestTime := 15 } :=
  ⟨by decide,
    (unchanged_report sampleGlobal "a" true upAt10.1 upAt10.2 15
      { Host := "a", IsUp := true, LastChange := 10, UpdatetimeStart := 0,
        LastRequestTime := 10 } (by decide) rfl).1,
    (unchanged_report sampleGlobal "a" true upAt10.1 upAt10.2 15
      { Host := "a", IsUp := true, LastChange := 10, UpdatetimeStart := 0,
        LastRequestTime := 10 } (by decide) rfl).2.2.2.1⟩

/-- Counterexample to C8 as stated: host `a` was last reported at instant 10
and the sweep runs at instant `10 + maxDuration + 1` with the timeout
`maxDuration`; the difference `now - LastRequestTime` exceeds the timeout,
yet `Sub` returns `maxDuration`, which does not, and the host stays in the
table. -/
theorem eviction_counterexample :
    mapGet upAt10.1 "a" =
      some { Host := "a", IsUp := true, LastChange := 10, UpdatetimeStart := 0,
             LastRequestTime := 10 } ∧
    (9223372036854775818 : Time) = 10 + maxDuration + 1 ∧
    (9223372036854775818 : Time) - 10 > maxDuration ∧
    mapGet (CleanupInactiveHosts sampleGlobal sampleDurationString maxDuration upAt10.1
        (atTime 9223372036854775818 upAt10.2)).1 "a" =
      some { Host := "a", IsUp := true, LastChange := 10, UpdatetimeStart := 0,
             LastRequestTime := 10 } ∧
    ¬ ((CleanupInactiveHosts sampleGlobal sampleDurationString maxDuration upAt10.1
        (atTime 9223372036854775818 upAt10.2)).1 =
      upAt10.1.filter
        (fun e => decide ((9223372036854775818 : Time) - e.2.LastRequestTime ≤ maxDuration))) := by
  refine ⟨by decide, by decide, by decide, by decide, by decide⟩

/-- Claim C8, as amended: for a timeout that is a `time.Duration` below the
greatest one, one sweep pass of `CleanupInactiveHosts` at `now` leaves exactly
the entries with `now - LastRequestTime <= timeout`, each as it was, removes
every entry with `now - LastRequestTime > timeout`, and emits for each removed
entry one event with start its `LastRequestTime` and end `now`; so a host last
reported at `t0` is present after a sweep at `t0 + timeout - e` and absent
after a sweep at `t0 + timeout + e`, for every `e > 0`.  With the greatest
duration as timeout a sweep removes no entry and emits no event. -/
theorem eviction (g : Global) (ds : Duration → String) (timeout : Duration) (ss : Table)
    (w : World) (now : Time) (hwf : WF ss) (hlo : minDuration ≤ timeout)
    (hhi : timeout < maxDuration) :
    (CleanupInactiveHosts g ds timeout ss (atTime now w)).1 =
      ss.filter (fun e => decide (now - e.2.LastRequestTime ≤ timeout)) ∧
    (CleanupInactiveHosts g ds timeout ss (atTime now w)).2.emitted =
      w.emitted ++
        (ss.filter (fun e => decide (now - e.2.LastRequestTime > timeout))).map
          (fun e =>
            { StartTime := e.2.LastRequestTime, EndTime := now,
              Reason := "Removed host " ++ q ++ e.1 ++ q ++
                " from the list of monitored hosts after " ++ ds timeout ++
                " of inactivty" }) ∧
    (∀ (h : String) (s : ServiceState) (e : Duration), mapGet ss h = some s → 0 < e →
      (now = s.LastRequestTime + timeout - e →
        mapGet (CleanupInactiveHosts g ds timeout ss (atTime now w)).1 h = some s) ∧
      (now = s.LastRequestTime + timeout + e →
        mapGet (CleanupInactiveHosts g ds timeout ss (atTime now w)).1 h = none)) ∧
    (CleanupInactiveHosts g ds maxDuration ss (atTime now w)).1 = ss ∧
    (CleanupInactiveHosts g ds maxDuration ss (atTime now w)).2.emitted = w.emitted := by
  have hst : ∀ e : String × ServiceState,
      stale timeout now e = decide (now - e.2.LastRequestTime > timeout) := by
    intro e
    unfold stale
    exact decide_eq_decide.mpr (Sub_gt_iff now e.2.LastRequestTime timeout hlo hhi)
  have hmax : ∀ e : String × ServiceState, stale maxDuration now e = false := by
    intro e
    unfold stale
    exact decide_eq_false (not_lt.mpr (Sub_le_maxDuration now e.2.LastRequestTime))
  have htab : (CleanupInactiveHosts g ds timeout ss (atTime now w)).1 =
      ss.filter (fun e => decide (now - e.2.LastRequestTime ≤ timeout)) := by
    rw [CleanupInactiveHosts_table g ds timeout ss (atTime now w) hwf]
    apply List.filter_congr
    intro e _
    show (!stale timeout now e) = decide (now - e.2.LastRequestTime ≤ timeout)
    rw [hst e]
    by_cases hc : now - e.2.LastRequestTime > timeout
    · simp [hc, not_le.mpr hc]
    · simp [hc, not_lt.mp hc]
  refine ⟨htab, ?_, ?_, ?_, ?_⟩
  · rw [CleanupInactiveHosts_emitted]
    have hf : ss.filter (stale timeout ((atTime now w).clock 0)) =
        ss.filter (fun e => decide (now - e.2.LastRequestTime > timeout)) := by
      apply List.filter_congr
      intro e _
      exact hst e
    rw [hf]
    rfl
  · intro h s e hget he
    rw [htab, mapGet_filter ss _ h s hwf hget]
    constructor
    · intro hnow
      have : now - s.LastRequestTime ≤ timeout := by
        rw [hnow]
        linarith
      simp [this]
    · intro hnow
      have : ¬ (now - s.LastRequestTime ≤ timeout) := by
        rw [hnow]
        intro hle
        linarith
      simp [this]
  · rw [CleanupInactiveHosts_table g ds maxDuration ss (atTime now w) hwf]
    apply List.filter_eq_self.mpr
    intro e _
    show (!stale maxDuration now e) = true
    rw [hmax e]
    rfl
  · rw [CleanupInactiveHosts_emitted]
    have hf : ss.filter (stale maxDuration ((atTime now w).clock 0)) = [] := by
      apply List.filter_eq_nil_iff.mpr
      intro e _
      show ¬ (stale maxDuration now e = true)
      rw [hmax e]
      exact Bool.false_ne_true
    rw [hf]
    simp [atTime]

/-- Witness of the amended C8: host `a`, last reported at instant 10, is swept
at instant 16 with a timeout of 5: the table is empty afterwards. -/
theorem eviction_witness :
    WF upAt10.1 ∧ minDuration ≤ 5 ∧ (5 : Duration) < maxDuration ∧
    (CleanupInactiveHosts sampleGlobal sampleDurationString 5 upAt10.1
        (atTime 16 upAt10.2)).1 =
      upAt10.1.filter (fun e => decide ((16 : Time) - e.2.LastRequestTime ≤ 5)) ∧
    (CleanupInactiveHosts sampleGlobal sampleDurationString 5 upAt10.1
        (atTime 16 upAt10.2)).1 = [] :=
  ⟨by unfold WF; decide, by decide, by decide,
    (eviction sampleGlobal sampleDurationString 5 upAt10.1 upAt10.2 16
      (by unfold WF; decide) (by decide) (by decide)).1,
    by decide⟩

/-- Claim C9: for `N` reports on pairwise different hosts and every order in
which the mutex lets the `N` calls of `UpdateServiceState` in, the table
built from the empty table has exactly `N` entries, one per host, and the
entry of each host carries the value reported for it. -/
theorem distinct_hosts (g : Global) (calls order : List (String × Bool)) (w : World)
    (hnd : (calls.map Prod.fst).Nodup) (hperm : order.Perm calls) :
    (runUpdates g order ([], w)).1.length = calls.length ∧
    WF (runUpdates g order ([], w)).1 ∧
    (∀ h, h ∈ (runUpdates g order ([], w)).1.map Prod.fst ↔ h ∈ calls.map Prod.fst) ∧
    (∀ c ∈ calls, ∃ s, mapGet (runUpdates g order ([], w)).1 c.1 = some s ∧
      s.Host = c.1 ∧ s.IsUp = c.2) := by
  have hnd2 : (order.map Prod.fst).Nodup :=
    (List.Perm.nodup_iff (List.Perm.map Prod.fst hperm)).mpr hnd
  obtain ⟨added, h1, h2, h3⟩ :=
    runUpdates_fresh g order [] w hnd2 (by intro c _; rfl)
  simp only [List.nil_append] at h1
  have hkeys : added.map Prod.fst = order.map Prod.fst := by
    rw [← h2]
    simp [List.map_map, Function.comp_def]
  have hwf : WF added := by
    unfold WF
    rw [hkeys]
    exact hnd2
  rw [h1]
  refine ⟨?_, hwf, ?_, ?_⟩
  · rw [← List.Perm.length_eq hperm, ← h2]
    simp
  · intro h
    rw [hkeys]
    exact List.Perm.mem_iff (List.Perm.map Prod.fst hperm)
  · intro c hc
    have hc2 : c ∈ order := (List.Perm.mem_iff hperm).mpr hc
    rw [← h2] at hc2
    obtain ⟨e, he, hec⟩ := List.mem_map.mp hc2
    refine ⟨e.2, ?_, ?_, ?_⟩
    · rw [← hec]
      exact mapGet_of_mem added e.1 e.2 hwf he
    · rw [← hec]
      exact h3 e he
    · rw [← hec]

/-- Witness of C9: three hosts, the calls let in in another order than the
one they are listed in. -/
theorem distinct_hosts_witness :
    ([("a", true), ("b", false), ("c", true)].map Prod.fst).Nodup ∧
    [("c", true), ("a", true), ("b", false)].Perm [("a", true), ("b", false), ("c", true)] ∧
    (runUpdates sampleGlobal [("c", true), ("a", true), ("b", false)]
      ([], quietWorld 10)).1.length = [("a", true), ("b", false), ("c", true)].length :=
  ⟨by decide, by decide,
    (distinct_hosts sampleGlobal [("a", true), ("b", false), ("c", true)]
      [("c", true), ("a", true), ("b", false)] (quietWorld 10) (by decide) (by decide)).1⟩

/-- Claim C10: `LogUpdatetimeEvent` hands nothing back to its caller: when the
log file cannot be opened or written it prints one line on the standard
logger, leaves the log file as it was and leaves the clock alone; and the
table that `UpdateServiceState` or a sweep pass produces is the same for
every way the sink may accept or fail. -/
theorem best_effort_logging (g : Global) (h : String) (b : Bool) (ss : Table) (w : World)
    (sink2 : Nat → SinkResult) (event : UpdatetimeEvent) (err : String)
    (ds : Duration → String) (timeout : Duration) :
    (LogUpdatetimeEvent g event w).clock = w.clock ∧
    (LogUpdatetimeEvent g event { w with sink := fun _ => SinkResult.ok }).file =
      w.file ++ [event] ∧
    (LogUpdatetimeEvent g event { w with sink := fun _ => SinkResult.openError err }).file =
      w.file ∧
    (LogUpdatetimeEvent g event { w with sink := fun _ => SinkResult.openError err }).diag =
      w.diag ++ ["Failed to open log file " ++ q ++ g.LOGFILENAME ++ q ++ ": " ++ err] ∧
    (LogUpdatetimeEvent g event { w with sink := fun _ => SinkResult.writeError err }).file =
      w.file ∧
    (LogUpdatetimeEvent g event { w with sink := fun _ => SinkResult.writeError err }).diag =
      w.diag ++ ["Failed to write to log file " ++ q ++ g.LOGFILENAME ++ q ++ ": " ++ err] ∧
    (UpdateServiceState g h b ss { w with sink := sink2 }).1 =
      (UpdateServiceState g h b ss w).1 ∧
    (UpdateServiceState g h b ss { w with sink := sink2 }).2.emitted =
      (UpdateServiceState g h b ss w).2.emitted ∧
    (CleanupInactiveHosts g ds timeout ss { w with sink := sink2 }).1 =
      (CleanupInactiveHosts g ds timeout ss w).1 ∧
    (RemoveInactiveHosts g ss { w with sink := sink2 }).1 =
      (RemoveInactiveHosts g ss w).1 := by
  refine ⟨LogUpdatetimeEvent_clock g event w, ?_, ?_, ?_, ?_, ?_,
    UpdateServiceState_table_of_clock g h b ss _ w rfl,
    UpdateServiceState_emitted_of_clock g h b ss _ w rfl rfl, ?_, ?_⟩
  · simp [LogUpdatetimeEvent]
  · simp [LogUpdatetimeEvent, logPrintf]
  · simp [LogUpdatetimeEvent, logPrintf]
  · simp [LogUpdatetimeEvent, logPrintf]
  · simp [LogUpdatetimeEvent, logPrintf]
  · simp only [CleanupInactiveHosts, timeNow]
    rw [cleanupLoop_table, cleanupLoop_table]
  · simp only [RemoveInactiveHosts, timeNow]
    rw [removeLoop_table, removeLoop_table]

end StatusPage
